import Mathlib

/-!
Verification of the F1 Race Winners API (`src/main.py`).

The service is a read-only HTTP API over a hard-coded dataset of Formula 1
race winners.  We embed the dataset, the response shapes and the three
request handlers (`read_root`, `get_year_winners`, `get_race_winner`) as
Lean definitions and prove the specified properties about them.
-/

namespace F1

/-- The winner of a race: Python dict `{"race": ..., "winner": ...}`. -/
structure RaceWinner where
  race : String
  winner : String
deriving DecidableEq, Repr

/-- The hard-coded dataset `f1_race_winners` from `src/main.py`, lines 27-50.
A Python dict preserving insertion order is embedded as an association list
from year to the ordered sequence of race winners. -/
def f1_race_winners : List (Int × List RaceWinner) :=
  [ (2021,
      [ ⟨"bahrain", "Lewis Hamilton"⟩,
        ⟨"emilia_romagna", "Max Verstappen"⟩,
        ⟨"portuguese", "Lewis Hamilton"⟩ ]),
    (2022,
      [ ⟨"bahrain", "Charles Leclerc"⟩,
        ⟨"saudi_arabia", "Max Verstappen"⟩,
        ⟨"australian", "Charles Leclerc"⟩ ]),
    (2023,
      [ ⟨"bahrain", "Max Verstappen"⟩,
        ⟨"saudi_arabia", "Max Verstappen"⟩,
        ⟨"australian", "Max Verstappen"⟩ ]),
    (2024,
      [ ⟨"bahrain", "Max Verstappen"⟩,
        ⟨"australian", "Carlos Sainz"⟩,
        ⟨"saudi_arabia", "Max Verstappen"⟩,
        ⟨"monaco", "Charles Leclerc"⟩,
        ⟨"cape_town", "Abdul Davids"⟩ ]) ]

/-- Whitespace characters removed by Python `str.strip()`:
space, tab, newline, carriage return, vertical tab, form feed. -/
def pyIsSpace (c : Char) : Bool :=
  c = ' ' || c = '\t' || c = '\n' || c = '\r' ||
    c = Char.ofNat 0x0B || c = Char.ofNat 0x0C

/-- ASCII lowercasing of a single character, as Python `str.lower()` acts
on the ASCII identifiers and path segments this service handles. -/
def pyLowerChar (c : Char) : Char :=
  if 'A' ≤ c ∧ c ≤ 'Z' then Char.ofNat (c.toNat + 32) else c

/-- Python `str.strip()` on the underlying character list: drop leading and
trailing whitespace. -/
def pyStripList (l : List Char) : List Char :=
  ((l.dropWhile pyIsSpace).reverse.dropWhile pyIsSpace).reverse

/-- Python `s.strip().lower()`: trim leading/trailing whitespace, then
lowercase.  This is the normalization applied on both sides of the race
comparison in `get_race_winner` (line 201). -/
def pyNormalize (s : String) : String :=
  ⟨(pyStripList s.data).map pyLowerChar⟩

/-- Result of the `/` endpoint: `{"message": ...}`. -/
structure ResponseMessage where
  message : String
deriving DecidableEq, Repr

/-- Result of the `/winners/{year}` endpoint: either the success payload
`{"year": ..., "winners": ...}` or a `JSONResponse` with a status code and a
`{"message": ...}` body. -/
inductive YearWinnersResult where
  | ok (year : Int) (winners : List RaceWinner)
  | notFound (status : Nat) (message : String)
deriving DecidableEq, Repr

/-- Result of the `/winners/{year}/{race}` endpoint: either the success
payload `{"year": ..., "race": ..., "winner": ...}` or a `JSONResponse`
with a status code and a `{"message": ...}` body. -/
inductive RaceWinnerResult where
  | ok (year : Int) (race : String) (winner : String)
  | notFound (status : Nat) (message : String)
deriving DecidableEq, Repr

def yearNotFoundMessage : String := "Data not available for the requested year."

def raceNotFoundMessage : String := "Data not available for the requested race."

/-- Handler `read_root` (`src/main.py`, lines 154-158). -/
def read_root : ResponseMessage :=
  ⟨"Welcome to the F1 Race Winners API! Docs at /docs."⟩

/-- Handler `get_year_winners` (`src/main.py`, lines 171-182), parametrized
by the dataset it reads (the Python code reads the module-level global). -/
def get_year_winners_core (ds : List (Int × List RaceWinner)) (year : Int) :
    YearWinnersResult :=
  match ds.lookup year with
  | some winners => .ok year winners
  | none => .notFound 404 yearNotFoundMessage

/-- Handler `get_year_winners` applied to the global dataset. -/
def get_year_winners (year : Int) : YearWinnersResult :=
  get_year_winners_core f1_race_winners year

/-- The `for race_info in f1_race_winners[year]` loop of `get_race_winner`
(`src/main.py`, lines 200-206): return the first record whose normalized
race equals the normalized input, scanning in order. -/
def findRace (race : String) : List RaceWinner → Option RaceWinner
  | [] => none
  | race_info :: rest =>
    if pyNormalize race_info.race = pyNormalize race then some race_info
    else findRace race rest

/-- Handler `get_race_winner` (`src/main.py`, lines 195-218), parametrized
by the dataset it reads. -/
def get_race_winner_core (ds : List (Int × List RaceWinner)) (year : Int)
    (race : String) : RaceWinnerResult :=
  match ds.lookup year with
  | some winners =>
    match findRace race winners with
    | some race_info => .ok year race race_info.winner
    | none => .notFound 404 raceNotFoundMessage
  | none => .notFound 404 yearNotFoundMessage

/-- Handler `get_race_winner` applied to the global dataset. -/
def get_race_winner (year : Int) (race : String) : RaceWinnerResult :=
  get_race_winner_core f1_race_winners year race

/-- The `read_root` handler as it executes against the process state (the
module-level dataset): its body contains no assignment, so it returns the
fixed payload and leaves the state exactly as the body left it. -/
def read_root_handler (s : List (Int × List RaceWinner)) :
    ResponseMessage × List (Int × List RaceWinner) :=
  (read_root, s)

/-- The `get_year_winners` handler as it executes against the process
state: it reads the dataset and performs no assignment. -/
def get_year_winners_handler (s : List (Int × List RaceWinner)) (year : Int) :
    YearWinnersResult × List (Int × List RaceWinner) :=
  (get_year_winners_core s year, s)

/-- The `get_race_winner` handler as it executes against the process
state: it reads the dataset and performs no assignment. -/
def get_race_winner_handler (s : List (Int × List RaceWinner)) (year : Int)
    (race : String) : RaceWinnerResult × List (Int × List RaceWinner) :=
  (get_race_winner_core s year race, s)

/-! ### Helper lemmas about the first-match loop -/

theorem findRace_mem {r : String} :
    ∀ {ws : List RaceWinner} {rec : RaceWinner}, findRace r ws = some rec →
      rec ∈ ws ∧ pyNormalize rec.race = pyNormalize r := by
  intro ws
  induction ws with
  | nil => intro rec h; simp [findRace] at h
  | cons a rest ih =>
    intro rec h
    by_cases hc : pyNormalize a.race = pyNormalize r
    · rw [findRace, if_pos hc] at h
      injection h with h'
      subst h'
      exact ⟨List.mem_cons_self a rest, hc⟩
    · rw [findRace, if_neg hc] at h
      obtain ⟨hm, he⟩ := ih h
      exact ⟨List.mem_cons_of_mem a hm, he⟩

theorem findRace_none_iff {r : String} :
    ∀ {ws : List RaceWinner}, findRace r ws = none ↔
      ∀ rec ∈ ws, pyNormalize rec.race ≠ pyNormalize r := by
  intro ws
  induction ws with
  | nil => simp [findRace]
  | cons a rest ih =>
    by_cases hc : pyNormalize a.race = pyNormalize r
    · rw [findRace, if_pos hc]
      constructor
      · intro h; exact absurd h (by simp)
      · intro h; exact absurd hc (h a (List.mem_cons_self a rest))
    · rw [findRace, if_neg hc, ih]
      constructor
      · intro h rec hm
        rcases List.mem_cons.mp hm with h1 | h2
        · subst h1; exact hc
        · exact h rec h2
      · intro h rec hm
        exact h rec (List.mem_cons_of_mem a hm)

theorem findRace_first {r : String} :
    ∀ (ws : List RaceWinner) (i : Nat) (hi : i < ws.length),
      pyNormalize (ws.get ⟨i, hi⟩).race = pyNormalize r →
      (∀ j (hj : j < i),
        pyNormalize (ws.get ⟨j, Nat.lt_trans hj hi⟩).race ≠ pyNormalize r) →
      findRace r ws = some (ws.get ⟨i, hi⟩) := by
  intro ws
  induction ws with
  | nil => intro i hi; exact absurd hi (Nat.not_lt_zero i)
  | cons a rest ih =>
    intro i hi hmatch hfirst
    cases i with
    | zero =>
      have hmatch' : pyNormalize a.race = pyNormalize r := hmatch
      rw [findRace, if_pos hmatch']
      rfl
    | succ k =>
      have hne : pyNormalize a.race ≠ pyNormalize r := hfirst 0 (Nat.succ_pos k)
      rw [findRace, if_neg hne]
      exact ih k (Nat.lt_of_succ_lt_succ hi) hmatch
        (fun j hj => hfirst (j + 1) (Nat.succ_lt_succ hj))

theorem findRace_eq_of_nodup {r : String} :
    ∀ {ws : List RaceWinner} {rec : RaceWinner},
      (ws.map (fun x => pyNormalize x.race)).Nodup → rec ∈ ws →
      pyNormalize rec.race = pyNormalize r → findRace r ws = some rec := by
  intro ws
  induction ws with
  | nil => intro rec _ hm; simp at hm
  | cons a rest ih =>
    intro rec hnd hm he
    rcases List.mem_cons.mp hm with h1 | h2
    · subst h1
      rw [findRace, if_pos he]
    · have hne : pyNormalize a.race ≠ pyNormalize r := by
        intro hc
        apply (List.nodup_cons.mp hnd).1
        have hra : pyNormalize a.race = pyNormalize rec.race := hc.trans he.symm
        show pyNormalize a.race ∈ rest.map (fun x => pyNormalize x.race)
        rw [hra]
        exact List.mem_map_of_mem _ h2
      rw [findRace, if_neg hne]
      exact ih (List.nodup_cons.mp hnd).2 h2 he

/-! ### Claim theorems -/

/-- C1: for every year `y` present in the dataset and every input string
`r`, `get_race_winner y r` compares `r` against the stored race identifiers
after trimming and lowercasing both sides, scans the year's sequence in
order, and returns the winner of the first record whose normalized race
equals the normalized input. -/
theorem race_winner_first_match (y : Int) (ws : List RaceWinner) (r : String)
    (i : Nat) (hy : f1_race_winners.lookup y = some ws) (hi : i < ws.length)
    (hmatch : pyNormalize (ws.get ⟨i, hi⟩).race = pyNormalize r)
    (hfirst : ∀ j (hj : j < i),
      pyNormalize (ws.get ⟨j, Nat.lt_trans hj hi⟩).race ≠ pyNormalize r) :
    get_race_winner y r = .ok y r (ws.get ⟨i, hi⟩).winner := by
  simp only [get_race_winner, get_race_winner_core, hy,
    findRace_first ws i hi hmatch hfirst]

theorem race_winner_first_match_witness :
    get_race_winner 2024 " SAUDI_ARABIA " =
      .ok 2024 " SAUDI_ARABIA " "Max Verstappen" := by
  have h := race_winner_first_match 2024
    [ ⟨"bahrain", "Max Verstappen"⟩,
      ⟨"australian", "Carlos Sainz"⟩,
      ⟨"saudi_arabia", "Max Verstappen"⟩,
      ⟨"monaco", "Charles Leclerc"⟩,
      ⟨"cape_town", "Abdul Davids"⟩ ]
    " SAUDI_ARABIA " 2 (by decide) (by decide) (by decide)
    (by
      intro j hj
      interval_cases j
      · exact (by decide : pyNormalize "bahrain" ≠ pyNormalize " SAUDI_ARABIA ")
      · exact (by decide : pyNormalize "australian" ≠ pyNormalize " SAUDI_ARABIA "))
  exact h

/-- C2: for every year `y` present in the dataset, `get_year_winners y`
returns the success payload with exactly the stored sequence for `y`, in
original order, with no additions or omissions. -/
theorem year_winners_returns_stored (y : Int) (ws : List RaceWinner)
    (hy : f1_race_winners.lookup y = some ws) :
    get_year_winners y = .ok y ws := by
  simp only [get_year_winners, get_year_winners_core, hy]

theorem year_winners_returns_stored_witness :
    get_year_winners 2022 = .ok 2022
      [ ⟨"bahrain", "Charles Leclerc"⟩,
        ⟨"saudi_arabia", "Max Verstappen"⟩,
        ⟨"australian", "Charles Leclerc"⟩ ] :=
  year_winners_returns_stored 2022
    [ ⟨"bahrain", "Charles Leclerc"⟩,
      ⟨"saudi_arabia", "Max Verstappen"⟩,
      ⟨"australian", "Charles Leclerc"⟩ ] (by decide)

/-- C4: whenever the input race normalizes to a stored race under year `y`,
the success payload of `get_race_winner y r` carries the caller's literal
input string `r` verbatim as its race field (and `y` as its year), not the
canonical stored identifier. -/
theorem race_winner_echoes_input (y : Int) (r : String)
    (ws : List RaceWinner) (rec : RaceWinner)
    (hy : f1_race_winners.lookup y = some ws) (hm : rec ∈ ws)
    (he : pyNormalize rec.race = pyNormalize r) :
    ∃ w, get_race_winner y r = .ok y r w := by
  cases hf : findRace r ws with
  | none => exact absurd he (findRace_none_iff.mp hf rec hm)
  | some rec2 =>
    exact ⟨rec2.winner, by
      simp only [get_race_winner, get_race_winner_core, hy, hf]⟩

theorem race_winner_echoes_input_witness :
    ∃ w, get_race_winner 2024 "Bahrain" = .ok 2024 "Bahrain" w :=
  race_winner_echoes_input 2024 "Bahrain"
    [ ⟨"bahrain", "Max Verstappen"⟩,
      ⟨"australian", "Carlos Sainz"⟩,
      ⟨"saudi_arabia", "Max Verstappen"⟩,
      ⟨"monaco", "Charles Leclerc"⟩,
      ⟨"cape_town", "Abdul Davids"⟩ ]
    ⟨"bahrain", "Max Verstappen"⟩ (by decide) (by decide) (by decide)

/-- C5: for every year `y` not present in the dataset, `get_year_winners y`
fails with HTTP status 404 and the body whose single message field is
exactly "Data not available for the requested year.". -/
theorem year_winners_absent_not_found (y : Int)
    (hy : f1_race_winners.lookup y = none) :
    get_year_winners y = .notFound 404 yearNotFoundMessage := by
  simp only [get_year_winners, get_year_winners_core, hy]

theorem year_winners_absent_not_found_witness :
    get_year_winners 1950 = .notFound 404 yearNotFoundMessage :=
  year_winners_absent_not_found 1950 (by decide)

/-- C6: `get_year_winners 2021` succeeds with a winners list of exactly 3
entries whose first entry is the record with race "bahrain" and winner
"Lewis Hamilton". -/
theorem year_winners_2021_scenario :
    ∃ ws, get_year_winners 2021 = .ok 2021 ws ∧ ws.length = 3 ∧
      ws.head? = some ⟨"bahrain", "Lewis Hamilton"⟩ :=
  ⟨ [ ⟨"bahrain", "Lewis Hamilton"⟩,
      ⟨"emilia_romagna", "Max Verstappen"⟩,
      ⟨"portuguese", "Lewis Hamilton"⟩ ],
    by decide, by decide, by decide⟩

/-- C3: `get_race_winner` checks the year before the race; its failure
outcomes are exactly: year absent → 404 with the year message (regardless
of the race input), year present but no normalized match → 404 with the
race message.  There are no other failure outcomes. -/
theorem race_winner_failure_characterization (y : Int) (r : String)
    (status : Nat) (msg : String) :
    get_race_winner y r = .notFound status msg ↔
      status = 404 ∧
        ((msg = yearNotFoundMessage ∧ f1_race_winners.lookup y = none) ∨
         (msg = raceNotFoundMessage ∧
           ∃ ws, f1_race_winners.lookup y = some ws ∧
             ∀ rec ∈ ws, pyNormalize rec.race ≠ pyNormalize r)) := by
  cases hl : f1_race_winners.lookup y with
  | none =>
    simp only [get_race_winner, get_race_winner_core, hl]
    constructor
    · intro h
      injection h with h1 h2
      exact ⟨h1.symm, Or.inl ⟨h2.symm, trivial⟩⟩
    · rintro ⟨h404, (⟨hmsg, -⟩ | ⟨hmsg, ws, hws, -⟩)⟩
      · subst h404; subst hmsg; rfl
      · exact Option.noConfusion hws
  | some ws =>
    cases hf : findRace r ws with
    | some rec =>
      simp only [get_race_winner, get_race_winner_core, hl, hf]
      constructor
      · intro h
        exact RaceWinnerResult.noConfusion h
      · rintro ⟨h404, (⟨hmsg, hnone⟩ | ⟨hmsg, ws2, hws2, hall⟩)⟩
        · exact Option.noConfusion hnone
        · injection hws2 with hws3
          subst hws3
          obtain ⟨hm, he⟩ := findRace_mem hf
          exact absurd he (hall rec hm)
    | none =>
      simp only [get_race_winner, get_race_winner_core, hl, hf]
      constructor
      · intro h
        injection h with h1 h2
        exact ⟨h1.symm, Or.inr ⟨h2.symm, ws, rfl, findRace_none_iff.mp hf⟩⟩
      · rintro ⟨h404, (⟨hmsg, hnone⟩ | ⟨hmsg, ws2, hws2, -⟩)⟩
        · exact Option.noConfusion hnone
        · subst h404; subst hmsg; rfl

/-- C7: the `/` handler always returns the fixed welcome payload and has
no failure modes (its result type `ResponseMessage` has no failure case,
and the process state is untouched). -/
theorem read_root_fixed_message (s : List (Int × List RaceWinner)) :
    (read_root_handler s).1 =
      ⟨"Welcome to the F1 Race Winners API! Docs at /docs."⟩ ∧
    (read_root_handler s).2 = s :=
  ⟨rfl, rfl⟩

/-- C8: every handler is deterministic and idempotent: no call mutates the
dataset state, and calling a handler again after a first call with the
same inputs yields the identical result. -/
theorem handlers_idempotent (s : List (Int × List RaceWinner)) (y : Int)
    (r : String) :
    ((read_root_handler s).2 = s ∧
      read_root_handler ((read_root_handler s).2) = read_root_handler s) ∧
    ((get_year_winners_handler s y).2 = s ∧
      get_year_winners_handler ((get_year_winners_handler s y).2) y =
        get_year_winners_handler s y) ∧
    ((get_race_winner_handler s y r).2 = s ∧
      get_race_winner_handler ((get_race_winner_handler s y r).2) y r =
        get_race_winner_handler s y r) :=
  ⟨⟨rfl, rfl⟩, ⟨rfl, rfl⟩, ⟨rfl, rfl⟩⟩

/-- Decided well-formedness facts about the hard-coded dataset: every
stored race identifier is a fixpoint of the normalization, and the race
identifiers (normalized or not) are pairwise distinct within each year. -/
theorem dataset_well_formed_decidable :
    ∀ p ∈ f1_race_winners,
      (∀ rec ∈ p.2, pyNormalize rec.race = rec.race) ∧
      (p.2.map (fun x => pyNormalize x.race)).Nodup ∧
      (p.2.map RaceWinner.race).Nodup := by decide

/-- C9: in the hard-coded dataset every stored race identifier is a
fixpoint of the normalization, the race identifiers within each year are
pairwise distinct, and consequently the first-match scan of
`get_race_winner` coincides with unique lookup: any stored record whose
race matches the normalized input is the record the scan returns. -/
theorem dataset_well_formed (p : Int × List RaceWinner)
    (hp : p ∈ f1_race_winners) :
    (∀ rec ∈ p.2, pyNormalize rec.race = rec.race) ∧
    (p.2.map RaceWinner.race).Nodup ∧
    (∀ r rec, rec ∈ p.2 → pyNormalize rec.race = pyNormalize r →
      findRace r p.2 = some rec) := by
  obtain ⟨h1, h2, h3⟩ := dataset_well_formed_decidable p hp
  exact ⟨h1, h3, fun r rec hm he => findRace_eq_of_nodup h2 hm he⟩

theorem dataset_well_formed_witness :
    pyNormalize "bahrain" = "bahrain" ∧
    findRace "BAHRAIN"
      [ ⟨"bahrain", "Lewis Hamilton"⟩,
        ⟨"emilia_romagna", "Max Verstappen"⟩,
        ⟨"portuguese", "Lewis Hamilton"⟩ ] =
      some ⟨"bahrain", "Lewis Hamilton"⟩ := by
  have h := dataset_well_formed
    (2021,
      [ ⟨"bahrain", "Lewis Hamilton"⟩,
        ⟨"emilia_romagna", "Max Verstappen"⟩,
        ⟨"portuguese", "Lewis Hamilton"⟩ ]) (by decide)
  exact ⟨h.1 ⟨"bahrain", "Lewis Hamilton"⟩ (by decide),
    h.2.2 "BAHRAIN" ⟨"bahrain", "Lewis Hamilton"⟩ (by decide) (by decide)⟩

/-- C10: cross-endpoint consistency: `get_race_winner y r` fails with the
year-not-found message exactly when `get_year_winners y` fails; it
succeeds exactly when `get_year_winners y` succeeds and its winners list
contains a record whose normalized race equals the normalized input, and
then the winner returned is that of the first such record in the list. -/
theorem cross_endpoint_consistency (y : Int) (r : String) :
    (get_race_winner y r = .notFound 404 yearNotFoundMessage ↔
      get_year_winners y = .notFound 404 yearNotFoundMessage) ∧
    ((∃ w, get_race_winner y r = .ok y r w) ↔
      (∃ ws, get_year_winners y = .ok y ws ∧
        ∃ rec ∈ ws, pyNormalize rec.race = pyNormalize r)) ∧
    (∀ (ws : List RaceWinner) (i : Nat) (hi : i < ws.length),
      get_year_winners y = .ok y ws →
      pyNormalize (ws.get ⟨i, hi⟩).race = pyNormalize r →
      (∀ j (hj : j < i),
        pyNormalize (ws.get ⟨j, Nat.lt_trans hj hi⟩).race ≠ pyNormalize r) →
      get_race_winner y r = .ok y r (ws.get ⟨i, hi⟩).winner) := by
  cases hl : f1_race_winners.lookup y with
  | none =>
    refine ⟨?_, ?_, ?_⟩
    · constructor
      · intro _
        simp only [get_year_winners, get_year_winners_core, hl]
      · intro _
        simp only [get_race_winner, get_race_winner_core, hl]
    · constructor
      · rintro ⟨w, hw⟩
        simp only [get_race_winner, get_race_winner_core, hl] at hw
        exact RaceWinnerResult.noConfusion hw
      · rintro ⟨ws, hws, -⟩
        simp only [get_year_winners, get_year_winners_core, hl] at hws
        exact YearWinnersResult.noConfusion hws
    · intro ws i hi hok
      simp only [get_year_winners, get_year_winners_core, hl] at hok
      exact YearWinnersResult.noConfusion hok
  | some ws0 =>
    have hyw : get_year_winners y = .ok y ws0 := by
      simp only [get_year_winners, get_year_winners_core, hl]
    refine ⟨?_, ?_, ?_⟩
    · rw [hyw]
      constructor
      · intro h
        cases hf : findRace r ws0 with
        | some rec =>
          simp only [get_race_winner, get_race_winner_core, hl, hf] at h
          exact RaceWinnerResult.noConfusion h
        | none =>
          simp only [get_race_winner, get_race_winner_core, hl, hf] at h
          injection h with h1 h2
          exact absurd h2 (by decide)
      · intro h
        exact YearWinnersResult.noConfusion h
    · constructor
      · rintro ⟨w, hw⟩
        cases hf : findRace r ws0 with
        | none =>
          simp only [get_race_winner, get_race_winner_core, hl, hf] at hw
          exact RaceWinnerResult.noConfusion hw
        | some rec =>
          obtain ⟨hm, he⟩ := findRace_mem hf
          exact ⟨ws0, hyw, rec, hm, he⟩
      · rintro ⟨ws, hws, rec, hm, he⟩
        rw [hyw] at hws
        injection hws with h1 h2
        subst h2
        cases hf : findRace r ws0 with
        | none => exact absurd he (findRace_none_iff.mp hf rec hm)
        | some rec2 =>
          exact ⟨rec2.winner, by
            simp only [get_race_winner, get_race_winner_core, hl, hf]⟩
    · intro ws i hi hok hmatch hfirst
      rw [hyw] at hok
      injection hok with h1 h2
      subst h2
      simp only [get_race_winner, get_race_winner_core, hl,
        findRace_first ws0 i hi hmatch hfirst]

end F1
